import Mathlib

/-!
Verification of the Nuria Core dependency registry and session manager.

The repository provides two components:

* `DependencyManager` (src/dependencymanager.hpp): a named-object registry
  with four threading policies.  Only the header is in the repository
  sources, so the bodies of `objectByName`, `objectType`, `storeObject`
  and the constructor are modelled from the specification (§4.1-§4.3)
  and the header's documentation comments; the inline `hasObject` is
  embedded directly from the header.
* `SessionManager` (src/sessionmanager.cpp): a `QMap`-backed table of
  sessions keyed by id, embedded directly from the source.

`QMap` is modelled as an association list whose `insert` replaces any
existing binding for the key, matching `QMap::insert`; `remove` drops the
binding, matching `QMap::remove`.
-/

/-- The four threading policies of `DependencyManager::ThreadingPolicy`
(src/dependencymanager.hpp lines 75-100). -/
inductive ThreadingPolicy where
  | DefaultPolicy
  | ApplicationGlobal
  | SingleThread
  | ThreadLocal
deriving DecidableEq, Repr

/-- A pool: the name → (value, declared type) map of one policy scope.
Values are opaque handles (`void *`), modelled as `Nat`; type identifiers
are Qt meta-type ids, modelled as `Int` with `-1` meaning "no type". -/
abbrev Pool := List (String × Nat × Int)

/-- Look a name up in a pool (`QMap::value` semantics, `none` if absent). -/
def poolLookup (pool : Pool) (name : String) : Option (Nat × Int) :=
  match pool with
  | [] => none
  | (n, v, t) :: rest => if n = name then some (v, t) else poolLookup rest name

/-- Insert into a pool, replacing any existing binding for the name
(`QMap::insert` semantics). -/
def poolInsert (pool : Pool) (name : String) (value : Nat) (type : Int) : Pool :=
  (name, value, type) :: pool.filter (fun e => e.1 ≠ name)

/-- Names in a pool are pairwise distinct — the §3 pool invariant. -/
def poolNamesNodup (pool : Pool) : Prop :=
  (pool.map (fun e => e.1)).Nodup

instance (pool : Pool) : Decidable (poolNamesNodup pool) := by
  unfold poolNamesNodup; infer_instance

/-- The registry state: the configured default policy, the single global
pool (shared by `ApplicationGlobal` and `SingleThread`), the per-thread
pools of `ThreadLocal`, and a counter of successful factory
constructions (the construction counter of spec §8). -/
structure Registry where
  defaultPolicy : ThreadingPolicy
  globalPool : Pool
  threadPools : List (Nat × Pool)
  constructions : Nat
deriving Repr

/-- The pool bound to a thread id, empty if that thread never touched the
registry (thread-local pools are created lazily, spec §4.1). -/
def threadPoolOf (pools : List (Nat × Pool)) (tid : Nat) : Pool :=
  match pools with
  | [] => []
  | (t, p) :: rest => if t = tid then p else threadPoolOf rest tid

/-- Replace the pool bound to a thread id. -/
def setThreadPool (pools : List (Nat × Pool)) (tid : Nat) (pool : Pool) :
    List (Nat × Pool) :=
  (tid, pool) :: pools.filter (fun e => e.1 ≠ tid)

/-- Modelled from the spec: §4.1 `resolvePool`, first step — a requested
`DefaultPolicy` is substituted by the registry's configured default
(the body of the resolver lives in the missing dependencymanager.cpp). -/
def resolvePolicy (r : Registry) (policy : ThreadingPolicy) : ThreadingPolicy :=
  if policy = ThreadingPolicy.DefaultPolicy then r.defaultPolicy else policy

/-- Modelled from the spec: §4.1 `resolvePool`, pool selection —
`ApplicationGlobal` and `SingleThread` use the single global pool,
`ThreadLocal` the calling thread's pool. -/
def getPoolFor (r : Registry) (tid : Nat) (policy : ThreadingPolicy) : Pool :=
  match resolvePolicy r policy with
  | ThreadingPolicy.ThreadLocal => threadPoolOf r.threadPools tid
  | _ => r.globalPool

/-- Modelled from the spec: writing back the pool selected by §4.1 for the
given policy and calling thread. -/
def setPoolFor (r : Registry) (tid : Nat) (policy : ThreadingPolicy) (pool : Pool) :
    Registry :=
  match resolvePolicy r policy with
  | ThreadingPolicy.ThreadLocal =>
      { r with threadPools := setThreadPool r.threadPools tid pool }
  | _ => { r with globalPool := pool }

/-- Result of a lookup: a value handle, `NotFound`, or `TypeMismatch`
(both failures map to `nullptr` in the C++ API, spec §4.2/§7). -/
inductive GetResult where
  | found : Nat → GetResult
  | notFound : GetResult
  | typeMismatch : GetResult
deriving DecidableEq, Repr

/-- Modelled from the spec: `DependencyManager::objectByName`
(declared src/dependencymanager.hpp lines 124-136, body in the missing
dependencymanager.cpp; behaviour per §4.2 and the header documentation).
`factory` is the external factory hook of §2/§6, fed the current
construction counter so that distinct constructions may yield distinct
handles; `type = -1` means no expected type. -/
def objectByName (factory : Nat → Int → Option Nat) (r : Registry) (tid : Nat)
    (name : String) (type : Int) (policy : ThreadingPolicy) :
    GetResult × Registry :=
  let pool := getPoolFor r tid policy
  match poolLookup pool name with
  | some (v, t) =>
      if type = -1 then (GetResult.found v, r)
      else if type = t then (GetResult.found v, r)
      else (GetResult.typeMismatch, r)
  | none =>
      if type = -1 then (GetResult.notFound, r)
      else
        match factory r.constructions type with
        | none => (GetResult.notFound, r)
        | some v =>
            let r1 := { r with constructions := r.constructions + 1 }
            (GetResult.found v, setPoolFor r1 tid policy (poolInsert pool name v type))

/-- Modelled from the spec: `DependencyManager::objectType` (declared
src/dependencymanager.hpp lines 138-141; "Returns the meta type of object
name or -1 if not found", with no construction, spec §4.2 `typeOf`). -/
def objectType (r : Registry) (tid : Nat) (name : String)
    (policy : ThreadingPolicy) : Int :=
  match poolLookup (getPoolFor r tid policy) name with
  | some (_, t) => t
  | none => -1

/-- `DependencyManager::hasObject`, embedded from its inline body in
src/dependencymanager.hpp lines 146-147:
`return objectType (name, policy) != -1;`. -/
def hasObject (r : Registry) (tid : Nat) (name : String)
    (policy : ThreadingPolicy) : Bool :=
  objectType r tid name policy != -1

/-- Modelled from the spec: `DependencyManager::storeObject` (declared
src/dependencymanager.hpp lines 149-156, body in the missing
dependencymanager.cpp; per §4.3 it unconditionally overwrites any
existing entry for the name in the resolved pool). -/
def storeObject (r : Registry) (tid : Nat) (name : String) (value : Nat)
    (type : Int) (policy : ThreadingPolicy) : Registry :=
  setPoolFor r tid policy (poolInsert (getPoolFor r tid policy) name value type)

/-- `DependencyManager::defaultThreadingPolicy` (declared
src/dependencymanager.hpp lines 110-114): returns the configured default. -/
def defaultThreadingPolicy (r : Registry) : ThreadingPolicy :=
  r.defaultPolicy

/-- Modelled from the spec: `DependencyManager::setDefaultThreadingPolicy`
(declared src/dependencymanager.hpp lines 116-122; "Passing DefaultPolicy
has no effect"). -/
def setDefaultThreadingPolicy (r : Registry) (policy : ThreadingPolicy) :
    Registry :=
  if policy = ThreadingPolicy.DefaultPolicy then r
  else { r with defaultPolicy := policy }

/-- Modelled from the spec: a freshly created registry — empty pools, no
constructions, and the default policy documented in the header
(src/dependencymanager.hpp line 97: ThreadLocal "is the default
behavious"). -/
def initRegistry : Registry :=
  { defaultPolicy := ThreadingPolicy.ThreadLocal
    globalPool := []
    threadPools := []
    constructions := 0 }

/-! ### Basic lemmas about pools and policy resolution -/

/-- Looking up the name just inserted returns the inserted entry. -/
theorem poolLookup_poolInsert_self (pool : Pool) (name : String) (v : Nat) (t : Int) :
    poolLookup (poolInsert pool name v t) name = some (v, t) := by
  simp [poolInsert, poolLookup]

/-- Inserting keeps the names of a pool pairwise distinct. -/
theorem poolNamesNodup_poolInsert (pool : Pool) (name : String) (v : Nat) (t : Int)
    (h : poolNamesNodup pool) : poolNamesNodup (poolInsert pool name v t) := by
  unfold poolNamesNodup poolInsert at *
  simp only [List.map_cons, List.nodup_cons]
  constructor
  · intro hmem
    rcases List.mem_map.mp hmem with ⟨e, he, hee⟩
    have := List.of_mem_filter he
    simp only [decide_eq_true_eq] at this
    exact this hee
  · exact List.Nodup.sublist (List.Sublist.map _ (List.filter_sublist pool)) h

/-- `setPoolFor` never changes the configured default policy. -/
theorem defaultPolicy_setPoolFor (r : Registry) (tid : Nat)
    (policy : ThreadingPolicy) (pool : Pool) :
    (setPoolFor r tid policy pool).defaultPolicy = r.defaultPolicy := by
  unfold setPoolFor
  cases resolvePolicy r policy <;> rfl

/-- `setPoolFor` never changes the construction counter. -/
theorem constructions_setPoolFor (r : Registry) (tid : Nat)
    (policy : ThreadingPolicy) (pool : Pool) :
    (setPoolFor r tid policy pool).constructions = r.constructions := by
  unfold setPoolFor
  cases resolvePolicy r policy <;> rfl

/-- Policy resolution only depends on the configured default. -/
theorem resolvePolicy_eq_of_defaultPolicy (r s : Registry)
    (h : s.defaultPolicy = r.defaultPolicy) (policy : ThreadingPolicy) :
    resolvePolicy s policy = resolvePolicy r policy := by
  unfold resolvePolicy
  rw [h]

/-- Reading back the pool just written for the same thread and policy
returns that pool. -/
theorem getPoolFor_setPoolFor (r : Registry) (tid : Nat)
    (policy : ThreadingPolicy) (pool : Pool) :
    getPoolFor (setPoolFor r tid policy pool) tid policy = pool := by
  unfold getPoolFor
  rw [resolvePolicy_eq_of_defaultPolicy r _ (defaultPolicy_setPoolFor ..)]
  unfold setPoolFor
  cases h : resolvePolicy r policy <;>
    simp [h, threadPoolOf, setThreadPool]

/-- On a freshly created registry every resolved pool is empty. -/
theorem getPoolFor_initRegistry (tid : Nat) (policy : ThreadingPolicy) :
    getPoolFor initRegistry tid policy = [] := by
  unfold getPoolFor
  cases h : resolvePolicy initRegistry policy <;>
    simp [initRegistry, threadPoolOf]

/-- After a store, looking up the same name in the same scope finds the
stored entry. -/
theorem getPoolFor_storeObject (r : Registry) (tid : Nat) (name : String)
    (v : Nat) (T : Int) (policy : ThreadingPolicy) :
    getPoolFor (storeObject r tid name v T policy) tid policy =
      poolInsert (getPoolFor r tid policy) name v T := by
  unfold storeObject
  exact getPoolFor_setPoolFor ..

/-! ### Claim theorems -/

/-- C5: `hasObject(name, policy)` holds exactly when
`objectType(name, policy)` is not `-1` (`NotFound`). -/
theorem hasObject_iff_objectType_ne (r : Registry) (tid : Nat) (name : String)
    (policy : ThreadingPolicy) :
    hasObject r tid name policy = true ↔ objectType r tid name policy ≠ -1 := by
  unfold hasObject
  simp [bne_iff_ne]

/-- C6: on an untouched registry, `get(n)` with no expected type returns
`NotFound` and `has(n)` is `false`, for every name, thread and policy. -/
theorem untouched_get_notFound (factory : Nat → Int → Option Nat) (tid : Nat)
    (name : String) (policy : ThreadingPolicy) :
    (objectByName factory initRegistry tid name (-1) policy).1 =
        GetResult.notFound ∧
      hasObject initRegistry tid name policy = false := by
  constructor
  · unfold objectByName
    rw [getPoolFor_initRegistry]
    simp [poolLookup]
  · unfold hasObject objectType
    rw [getPoolFor_initRegistry]
    simp [poolLookup]

/-- C10: the default threading policy of a freshly created registry is
`ThreadLocal`, before any `setDefaultThreadingPolicy` call. -/
theorem defaultThreadingPolicy_initRegistry :
    defaultThreadingPolicy initRegistry = ThreadingPolicy.ThreadLocal := rfl

/-- C2: `store(n, v1, T)` then `store(n, v2, T)` then `get(n, T)` returns
`v2`, and names in the resolved pool stay pairwise distinct. -/
theorem store_store_get (factory : Nat → Int → Option Nat) (r : Registry)
    (tid : Nat) (name : String) (v1 v2 : Nat) (T : Int)
    (policy : ThreadingPolicy) :
    (objectByName factory
        (storeObject (storeObject r tid name v1 T policy) tid name v2 T policy)
        tid name T policy).1 = GetResult.found v2 ∧
      (poolNamesNodup (getPoolFor r tid policy) →
        poolNamesNodup (getPoolFor
          (storeObject (storeObject r tid name v1 T policy) tid name v2 T policy)
          tid policy)) := by
  constructor
  · simp only [objectByName, getPoolFor_storeObject, poolLookup_poolInsert_self]
    by_cases hT : T = -1 <;> simp [hT]
  · intro h
    rw [getPoolFor_storeObject, getPoolFor_storeObject]
    exact poolNamesNodup_poolInsert _ _ _ _ (poolNamesNodup_poolInsert _ _ _ _ h)

/-- C2 witness: the theorem applied at a concrete registry and inputs. -/
theorem store_store_get_witness :
    (objectByName (fun _ _ => none)
        (storeObject (storeObject initRegistry 0 "a" 1 5
          ThreadingPolicy.SingleThread) 0 "a" 2 5 ThreadingPolicy.SingleThread)
        0 "a" 5 ThreadingPolicy.SingleThread).1 = GetResult.found 2 ∧
      poolNamesNodup (getPoolFor
        (storeObject (storeObject initRegistry 0 "a" 1 5
          ThreadingPolicy.SingleThread) 0 "a" 2 5 ThreadingPolicy.SingleThread)
        0 ThreadingPolicy.SingleThread) :=
  ⟨(store_store_get (fun _ _ => none) initRegistry 0 "a" 1 2 5
      ThreadingPolicy.SingleThread).1,
    (store_store_get (fun _ _ => none) initRegistry 0 "a" 1 2 5
      ThreadingPolicy.SingleThread).2 (by decide)⟩

/-- C3: after storing a value with declared type `T`, a `get` with a
specified expected type `U ≠ T` returns the `TypeMismatch` failure
result, never the stored value. -/
theorem store_get_type_mismatch (factory : Nat → Int → Option Nat)
    (r : Registry) (tid : Nat) (name : String) (v : Nat) (T U : Int)
    (policy : ThreadingPolicy) (hUT : U ≠ T) (hU : U ≠ -1) :
    (objectByName factory (storeObject r tid name v T policy)
        tid name U policy).1 = GetResult.typeMismatch := by
  simp only [objectByName, getPoolFor_storeObject, poolLookup_poolInsert_self]
  simp [hUT, hU]

/-- C3 witness: storing type `5` and requesting type `3` mismatches. -/
theorem store_get_type_mismatch_witness :
    ((3 : Int) ≠ 5) ∧ ((3 : Int) ≠ -1) ∧
      (objectByName (fun _ _ => none)
          (storeObject initRegistry 0 "a" 1 5 ThreadingPolicy.ApplicationGlobal)
          0 "a" 3 ThreadingPolicy.ApplicationGlobal).1 =
        GetResult.typeMismatch :=
  ⟨by decide, by decide,
    store_get_type_mismatch (fun _ _ => none) initRegistry 0 "a" 1 5 3
      ThreadingPolicy.ApplicationGlobal (by decide) (by decide)⟩

/-- C4: when the name is absent from the resolved pool, a type is
specified, and the factory hook cannot construct it, `get` returns
`NotFound` and the whole registry — in particular the pool — is
untouched. -/
theorem get_construction_failure (factory : Nat → Int → Option Nat)
    (r : Registry) (tid : Nat) (name : String) (T : Int)
    (policy : ThreadingPolicy)
    (habs : poolLookup (getPoolFor r tid policy) name = none)
    (hT : T ≠ -1) (hfail : factory r.constructions T = none) :
    objectByName factory r tid name T policy = (GetResult.notFound, r) := by
  simp only [objectByName, habs, hfail]
  simp [hT]

/-- C4 witness: a never-constructing factory on a fresh registry. -/
theorem get_construction_failure_witness :
    poolLookup (getPoolFor initRegistry 0 ThreadingPolicy.ThreadLocal) "a"
        = none ∧
      ((5 : Int) ≠ -1) ∧
      (fun (_ : Nat) (_ : Int) => (none : Option Nat))
          initRegistry.constructions 5 = none ∧
      objectByName (fun _ _ => none) initRegistry 0 "a" 5
          ThreadingPolicy.ThreadLocal = (GetResult.notFound, initRegistry) :=
  ⟨rfl, by decide, rfl,
    get_construction_failure (fun _ _ => none) initRegistry 0 "a" 5
      ThreadingPolicy.ThreadLocal rfl (by decide) rfl⟩

/-- C1: `get(n, T, P)` twice in sequence with no intervening store returns
the same result both times, and the factory hook constructs at most once
across the two calls (the construction counter grows by at most one). -/
theorem get_idempotent (factory : Nat → Int → Option Nat) (r : Registry)
    (tid : Nat) (name : String) (type : Int) (policy : ThreadingPolicy) :
    (objectByName factory (objectByName factory r tid name type policy).2
          tid name type policy).1 =
        (objectByName factory r tid name type policy).1 ∧
      (objectByName factory (objectByName factory r tid name type policy).2
          tid name type policy).2.constructions ≤ r.constructions + 1 := by
  cases h : poolLookup (getPoolFor r tid policy) name with
  | some vt =>
      obtain ⟨v, t⟩ := vt
      have hstate : (objectByName factory r tid name type policy).2 = r := by
        simp only [objectByName, h]
        by_cases h1 : type = -1 <;> by_cases h2 : type = t <;> simp [h1, h2]
      rw [hstate, hstate]
      exact ⟨rfl, Nat.le_succ _⟩
  | none =>
      by_cases h1 : type = -1
      · have hstate : (objectByName factory r tid name type policy).2 = r := by
          simp only [objectByName, h]
          simp [h1]
        rw [hstate, hstate]
        exact ⟨rfl, Nat.le_succ _⟩
      · cases hf : factory r.constructions type with
        | none =>
            have hstate : (objectByName factory r tid name type policy).2 = r := by
              simp only [objectByName, h, hf]
              simp [h1]
            rw [hstate, hstate]
            exact ⟨rfl, Nat.le_succ _⟩
        | some v =>
            have hfst : (objectByName factory r tid name type policy).1 =
                GetResult.found v := by
              simp only [objectByName, h, hf]
              simp [h1]
            have hsnd : (objectByName factory r tid name type policy).2 =
                setPoolFor { r with constructions := r.constructions + 1 }
                  tid policy
                  (poolInsert (getPoolFor r tid policy) name v type) := by
              simp only [objectByName, h, hf]
              simp [h1]
            have hsecond : objectByName factory
                (setPoolFor { r with constructions := r.constructions + 1 }
                  tid policy
                  (poolInsert (getPoolFor r tid policy) name v type))
                tid name type policy =
                (GetResult.found v,
                  setPoolFor { r with constructions := r.constructions + 1 }
                    tid policy
                    (poolInsert (getPoolFor r tid policy) name v type)) := by
              simp only [objectByName, getPoolFor_setPoolFor,
                poolLookup_poolInsert_self]
              simp [h1]
            rw [hsnd, hsecond]
            refine ⟨hfst.symm, ?_⟩
            rw [constructions_setPoolFor]

/-- A lock-serialized execution of concurrent `get` calls: under
`ApplicationGlobal` each call holds the pool mutex for its whole body
(spec §4.2/§5), so any interleaving of one call per thread is some
sequence of atomic calls; `tids` lists the calling threads in the order
the mutex admits them. -/
def runGets (factory : Nat → Int → Option Nat) (tids : List Nat)
    (r : Registry) (name : String) (type : Int) (policy : ThreadingPolicy) :
    List GetResult × Registry :=
  match tids with
  | [] => ([], r)
  | tid :: rest =>
      let step := objectByName factory r tid name type policy
      let tail := runGets factory rest step.2 name type policy
      (step.1 :: tail.1, tail.2)

/-- Once the global pool holds the entry, a `get` under
`ApplicationGlobal` from any thread returns it and leaves the registry
unchanged. -/
theorem objectByName_global_hit (factory : Nat → Int → Option Nat)
    (r : Registry) (tid : Nat) (name : String) (v : Nat) (type : Int)
    (h : poolLookup r.globalPool name = some (v, type)) :
    objectByName factory r tid name type ThreadingPolicy.ApplicationGlobal =
      (GetResult.found v, r) := by
  have hpool : getPoolFor r tid ThreadingPolicy.ApplicationGlobal =
      r.globalPool := by
    simp [getPoolFor, resolvePolicy]
  simp only [objectByName, hpool, h]
  by_cases h1 : type = -1 <;> simp [h1]

/-- Every further serialized caller observes the stored entry and leaves
the registry unchanged. -/
theorem runGets_global_hit (factory : Nat → Int → Option Nat)
    (tids : List Nat) (r : Registry) (name : String) (v : Nat) (type : Int)
    (h : poolLookup r.globalPool name = some (v, type)) :
    runGets factory tids r name type ThreadingPolicy.ApplicationGlobal =
      (List.replicate tids.length (GetResult.found v), r) := by
  induction tids with
  | nil => rfl
  | cons tid rest ih =>
      simp only [runGets, objectByName_global_hit factory r tid name v type h,
        ih, List.length_cons, List.replicate_succ]

/-- C7: any lock-serialized interleaving of concurrent `get(n, T,
ApplicationGlobal)` calls by `N ≥ 1` threads on an empty registry
constructs exactly once, and every call observes the same value. -/
theorem concurrent_get_constructs_once (factory : Nat → Int → Option Nat)
    (tids : List Nat) (name : String) (type : Int) (v : Nat)
    (hne : tids ≠ []) (hT : type ≠ -1) (hc : factory 0 type = some v) :
    (runGets factory tids initRegistry name type
          ThreadingPolicy.ApplicationGlobal).1 =
        List.replicate tids.length (GetResult.found v) ∧
      (runGets factory tids initRegistry name type
          ThreadingPolicy.ApplicationGlobal).2.constructions = 1 := by
  cases tids with
  | nil => exact absurd rfl hne
  | cons tid rest =>
      have hfirst : objectByName factory initRegistry tid name type
          ThreadingPolicy.ApplicationGlobal =
          (GetResult.found v,
            ⟨ThreadingPolicy.ThreadLocal, [(name, v, type)], [], 1⟩) := by
        simp [objectByName, getPoolFor, resolvePolicy, initRegistry, poolLookup,
          hT, hc, setPoolFor, poolInsert, setThreadPool]
      have hhit : poolLookup
          ((⟨ThreadingPolicy.ThreadLocal, [(name, v, type)], [], 1⟩ :
            Registry)).globalPool name = some (v, type) := by
        simp [poolLookup]
      simp only [runGets, hfirst,
        runGets_global_hit factory rest _ name v type hhit,
        List.length_cons, List.replicate_succ]
      exact ⟨trivial, trivial⟩

/-- C7 witness: two threads, a constructible type, concrete factory. -/
theorem concurrent_get_constructs_once_witness :
    (([0, 1] : List Nat) ≠ []) ∧ ((5 : Int) ≠ -1) ∧
      ((fun (_ : Nat) (_ : Int) => some 42) 0 (5 : Int) = some 42) ∧
      (runGets (fun _ _ => some 42) [0, 1] initRegistry "x" 5
            ThreadingPolicy.ApplicationGlobal).1 =
          List.replicate 2 (GetResult.found 42) ∧
      (runGets (fun _ _ => some 42) [0, 1] initRegistry "x" 5
            ThreadingPolicy.ApplicationGlobal).2.constructions = 1 :=
  ⟨by decide, by decide, rfl,
    (concurrent_get_constructs_once (fun _ _ => some 42) [0, 1] "x" 5 42
      (by decide) (by decide) rfl).1,
    (concurrent_get_constructs_once (fun _ _ => some 42) [0, 1] "x" 5 42
      (by decide) (by decide) rfl).2⟩

/-! ### SessionManager (src/sessionmanager.cpp) -/

/-- A session as `SessionManager` creates it: `Session (id, this)` —
identified by its id (the manager argument is the constant `this`).
The default-constructed session `Session ()` has an empty id. -/
structure Session where
  sessionId : String
deriving DecidableEq, Repr

/-- The sessions table of `SessionManagerPrivate`:
`QMap< QByteArray, Session > sessions`, keyed by session id. -/
abbrev SessionsMap := List (String × Session)

/-- `QMap::value` without default: the binding of `id`, if any. -/
def sessionsLookup (m : SessionsMap) (id : String) : Option Session :=
  match m with
  | [] => none
  | (k, s) :: rest => if k = id then some s else sessionsLookup rest id

/-- `QMap::contains`. -/
def sessionsContains (m : SessionsMap) (id : String) : Bool :=
  (sessionsLookup m id).isSome

/-- `QMap::insert`: replaces any existing binding for the key. -/
def sessionsInsert (m : SessionsMap) (id : String) (s : Session) :
    SessionsMap :=
  (id, s) :: m.filter (fun e => e.1 ≠ id)

/-- `QMap::remove`: drops the binding for the key, if any. -/
def sessionsRemove (m : SessionsMap) (id : String) : SessionsMap :=
  m.filter (fun e => e.1 ≠ id)

/-- The manager state: just the private sessions table. -/
structure SessionManager where
  sessions : SessionsMap
deriving Repr

/-- `SessionManager::createSession` (src/sessionmanager.cpp lines 43-47):
construct `Session (id, this)`, insert it under `id`, return it. -/
def createSession (mgr : SessionManager) (id : String) :
    Session × SessionManager :=
  let session := Session.mk id
  (session, { sessions := sessionsInsert mgr.sessions id session })

/-- `SessionManager::get` (src/sessionmanager.cpp lines 31-37): return the
stored session if the table contains `id` (`QMap::value`, whose default
for a missing key is the default-constructed session — unreachable under
the `contains` guard), else create one. -/
def SessionManager.get (mgr : SessionManager) (id : String) :
    Session × SessionManager :=
  if sessionsContains mgr.sessions id then
    ((sessionsLookup mgr.sessions id).getD (Session.mk ""), mgr)
  else
    createSession mgr id

/-- `SessionManager::removeSession` (src/sessionmanager.cpp lines 39-41):
`d_ptr->sessions.remove (id)`. -/
def removeSession (mgr : SessionManager) (id : String) : SessionManager :=
  { sessions := sessionsRemove mgr.sessions id }

/-- Looking up the id just inserted returns the inserted session. -/
theorem sessionsLookup_sessionsInsert_self (m : SessionsMap) (id : String)
    (s : Session) : sessionsLookup (sessionsInsert m id s) id = some s := by
  simp [sessionsInsert, sessionsLookup]

/-- Removing an absent id leaves the table unchanged. -/
theorem sessionsRemove_of_not_contains (m : SessionsMap) (id : String) :
    sessionsContains m id = false → sessionsRemove m id = m := by
  induction m with
  | nil => intro _; rfl
  | cons e rest ih =>
      intro h
      obtain ⟨k, s⟩ := e
      by_cases hk : k = id
      · simp [sessionsContains, sessionsLookup, hk] at h
      · have hrest : sessionsContains rest id = false := by
          simpa [sessionsContains, sessionsLookup, hk] using h
        have htail := ih hrest
        simp only [sessionsRemove] at htail ⊢
        rw [List.filter_cons_of_pos (by simp [hk]), htail]

/-- Removing one id does not touch the binding of any other id. -/
theorem sessionsLookup_sessionsRemove_ne (m : SessionsMap) (id id2 : String)
    (h : id2 ≠ id) :
    sessionsLookup (sessionsRemove m id) id2 = sessionsLookup m id2 := by
  induction m with
  | nil => rfl
  | cons e rest ih =>
      obtain ⟨k, s⟩ := e
      simp only [sessionsRemove, List.filter_cons] at ih ⊢
      by_cases hk : k = id
      · have hid2 : ¬id = id2 := fun hh => h hh.symm
        simpa [hk, hid2, sessionsLookup] using ih
      · by_cases hk2 : k = id2
        · simp [hk2, h, sessionsLookup]
        · simpa [hk, hk2, sessionsLookup] using ih

/-- After removing an id, the table no longer contains it. -/
theorem sessionsContains_sessionsRemove_self (m : SessionsMap) (id : String) :
    sessionsContains (sessionsRemove m id) id = false := by
  induction m with
  | nil => rfl
  | cons e rest ih =>
      obtain ⟨k, s⟩ := e
      by_cases hk : k = id
      · simpa [sessionsRemove, List.filter_cons, hk] using ih
      · simpa [sessionsRemove, sessionsContains, sessionsLookup,
          List.filter_cons, hk] using ih

/-- C8: `SessionManager::get` returns the stored session when one exists,
otherwise constructs one for `id` and inserts it; afterwards the table
contains `id`, and two consecutive `get(id)` calls with no intervening
`removeSession` return equal sessions. -/
theorem sessionManager_get_correct (mgr : SessionManager) (id : String) :
    (sessionsLookup mgr.sessions id = none →
        SessionManager.get mgr id =
          (Session.mk id,
            ⟨sessionsInsert mgr.sessions id (Session.mk id)⟩)) ∧
      (∀ s, sessionsLookup mgr.sessions id = some s →
        SessionManager.get mgr id = (s, mgr)) ∧
      sessionsContains (SessionManager.get mgr id).2.sessions id = true ∧
      ((SessionManager.get mgr id).2.get id).1 =
        (SessionManager.get mgr id).1 := by
  cases h : sessionsLookup mgr.sessions id with
  | none =>
      have hc : sessionsContains mgr.sessions id = false := by
        simp [sessionsContains, h]
      refine ⟨fun _ => ?_, ?_, ?_, ?_⟩
      · simp [SessionManager.get, sessionsContains, h, createSession]
      · intro s hs
        cases hs
      · simp [SessionManager.get, sessionsContains, h, createSession,
          sessionsLookup_sessionsInsert_self]
      · simp [SessionManager.get, sessionsContains, h, createSession,
          sessionsLookup_sessionsInsert_self]
  | some s =>
      have hc : sessionsContains mgr.sessions id = true := by
        simp [sessionsContains, h]
      refine ⟨?_, ?_, ?_, ?_⟩
      · intro hn
        cases hn
      · intro s2 hs2
        cases hs2
        simp [SessionManager.get, sessionsContains, h]
      · simp [SessionManager.get, sessionsContains, h]
      · simp [SessionManager.get, sessionsContains, h]

/-- C8 witness: `get` on an empty manager creates and stores the session. -/
theorem sessionManager_get_correct_witness :
    SessionManager.get ⟨[]⟩ "s1" =
        (Session.mk "s1",
          ⟨sessionsInsert ([] : SessionsMap) "s1" (Session.mk "s1")⟩) ∧
      sessionsContains (SessionManager.get ⟨[]⟩ "s1").2.sessions "s1" = true ∧
      ((SessionManager.get ⟨[]⟩ "s1").2.get "s1").1 =
        (SessionManager.get ⟨[]⟩ "s1").1 :=
  ⟨(sessionManager_get_correct ⟨[]⟩ "s1").1 rfl,
    (sessionManager_get_correct ⟨[]⟩ "s1").2.2.1,
    (sessionManager_get_correct ⟨[]⟩ "s1").2.2.2⟩

/-- C9: `removeSession(id)` removes at most the entry for `id`: every
other id's binding is unchanged; removing an absent id leaves the table
entirely unchanged; and `removeSession` is idempotent. -/
theorem removeSession_frame (mgr : SessionManager) (id id2 : String) :
    (id2 ≠ id →
        sessionsLookup (removeSession mgr id).sessions id2 =
          sessionsLookup mgr.sessions id2) ∧
      (sessionsContains mgr.sessions id = false →
        removeSession mgr id = mgr) ∧
      removeSession (removeSession mgr id) id = removeSession mgr id := by
  refine ⟨fun h => sessionsLookup_sessionsRemove_ne mgr.sessions id id2 h,
    fun h => ?_, ?_⟩
  · cases mgr with
    | mk tbl =>
        exact congrArg SessionManager.mk (sessionsRemove_of_not_contains tbl id h)
  · exact congrArg SessionManager.mk
      (sessionsRemove_of_not_contains _ id
        (sessionsContains_sessionsRemove_self mgr.sessions id))

/-- C9 witness: removing an absent id from a one-entry table. -/
theorem removeSession_frame_witness :
    sessionsLookup
        (removeSession (SessionManager.mk [("a", Session.mk "a")]) "b").sessions
        "a" =
      sessionsLookup (SessionManager.mk [("a", Session.mk "a")]).sessions "a" ∧
      removeSession (SessionManager.mk [("a", Session.mk "a")]) "b" =
        SessionManager.mk [("a", Session.mk "a")] ∧
      removeSession
          (removeSession (SessionManager.mk [("a", Session.mk "a")]) "b") "b" =
        removeSession (SessionManager.mk [("a", Session.mk "a")]) "b" :=
  ⟨(removeSession_frame (SessionManager.mk [("a", Session.mk "a")]) "b" "a").1
      (by decide),
    (removeSession_frame (SessionManager.mk [("a", Session.mk "a")]) "b" "a").2.1
      rfl,
    (removeSession_frame (SessionManager.mk [("a", Session.mk "a")]) "b" "a").2.2⟩
